import Mathlib

/-! # Verification of the Vaterite Lisp runtime core

A shallow embedding of `src/core.rs` (the runtime core of the Vaterite
Lisp interpreter) together with proofs about its native procedures.

Modelling conventions, used throughout:

* `Num` holds an `f64` in the source; it is modelled as `Int`.  Every
  property under study exercises only integral values (indices, counts,
  comparison chains); float rounding and NaN behaviour are outside the
  scope of this embedding.
* A native procedure receives its arguments as a `Vec<Value>` and indexes
  them positionally.  It is embedded with type
  `List Value → Option (Except Error Value)`: `none` models a Rust panic
  (out-of-bounds indexing or slicing), `some` a `Result` actually
  returned to the caller.
* `Rc`-shared immutable data is modelled by plain values; a `Box`
  (`Rc<RefCell<Value>>`) is modelled as an index into an explicit store
  that stateful natives thread through.
* The printer (`Printer::str_name` / `Printer::repr_name`) is an external
  collaborator of the core; natives that call it take the two rendering
  functions as explicit parameters `disp` and `rep`.
-/

namespace Vaterite

/-- Modelled from the spec: `Name` (names.rs is not under src/) is an
interned integer identifier, stable for the process lifetime. -/
abbrev Name := Nat

/-- Modelled from the spec: the name pool (names.rs is not under src/).
`add` interns a string; being a function, equal strings always intern to
the same identifier, which is the pool invariant of section 4.1.
`get` resolves an identifier back to its text. -/
structure NamePool where
  add : String → Name
  get : Name → String

/-- Modelled from the spec: `Arity` (types.rs is not under src/), the
declared constraint on native-procedure argument counts (section 4.2):
`Exact(n)`, `Min(n)` or `Range(lo, hi)`. -/
inductive Arity where
  | exact (n : Nat)
  | min (n : Nat)
  | range (lo hi : Nat)
deriving DecidableEq

/-- Modelled from the spec: `Arity::matches(count)` (section 4.2). -/
def Arity.matches : Arity → Nat → Bool
  | .exact n, c => decide (c = n)
  | .min n, c => decide (n ≤ c)
  | .range lo hi, c => decide (lo ≤ c) && decide (c ≤ hi)

mutual

/-- The `Value` enum of types.rs, embedded.  The enum declaration itself
is not under src/, but every variant and its payload shape is pinned
down by the pattern matches in src/core.rs and by section 3 of the spec:

* `num` — `f64` in the source, modelled as `Int` (see module comment);
* `list` — `Rc<Vec<Value>>`, an immutable shared sequence;
* `map` — `Rc<HashMap<Name, Value>>`, modelled as a key-unique
  association list (see `mapInsert`);
* `strct` — `Value::Struct(Rc<String>, Rc<ValueList>)`: the resolved id
  string plus the field vector (see `core_make_struct` in core.rs, which
  stores `names.get(sym)`);
* `box` — `Rc<RefCell<Value>>`, modelled as an index into a store;
* `func` — a user closure, opaque to the core, modelled by an id;
* `natFunc` — a native-procedure descriptor (name and declared arity;
  the implementation pointer is registry data, not structural data);
* `lazy` — a suspended cell: the already-forced `head` plus the forcing
  behaviour of its `tail`/`env` under the evaluator callback, recorded
  as a `Forcing` trace. -/
inductive Value where
  | nil
  | vtrue
  | vfalse
  | num (n : Int)
  | str (s : String)
  | chr (c : Char)
  | chars (cs : List Char)
  | sym (n : Name)
  | keyword (n : Name)
  | list (l : List Value)
  | map (entries : List (Name × Value))
  | strct (id : String) (fields : List Value)
  | box (cell : Nat)
  | func (id : Nat)
  | natFunc (name : String) (arity : Arity)
  | lazy (head : Value) (tail : Forcing)

/-- The forcing behaviour of a `Lazy` cell's `tail` expression under the
evaluator callback `eval(tail, env, names)` (spec section 4.5): the
callback returns either another `Lazy` cell (`step`, recording that
cell's head and in turn the forcing of its own tail), any terminal
non-`Lazy` value (`stop`; a `Lazy` result is represented by `step`, never
by `stop`), or an evaluation error (`fail`).  A finite trace models a
finite chain; infinite chains make `collect` diverge and are outside this
embedding, exactly as the spec warns. -/
inductive Forcing where
  | stop (terminal : Value)
  | step (head : Value) (next : Forcing)
  | fail (e : Error)

/-- The error taxonomy of error.rs, which is not under src/.  Modelled
from the spec (section 4.2) and from the constructor calls visible in
src/core.rs: `TypeErr(&str, Option<Value>)`, `ArgErr(name, arity, got)`,
`KwArgErr(name)` are constructed explicitly in core.rs; `keyNotFound` is
the spec's `KeyNotFound{key}` kind, produced by `get-key` for an absent
key (core.rs builds it from a message string naming the key, via the
`From<String>` conversion that lives in the missing error.rs);
`domainErr` is the spec's free-form `DomainError{message}`, the image of
every other `From<String>` conversion in core.rs (malformed template
strings, invalid keys, non-list arguments to cons, struct mismatches). -/
inductive Error where
  | typeErr (expected : String) (got : Option Value)
  | argErr (name : Option String) (expected : Arity) (got : Nat)
  | kwArgErr (name : Option String)
  | keyNotFound (message : String)
  | domainErr (message : String)

end

/-- Entries of a `HashMap<Name, Value>`. -/
abbrev Entries := List (Name × Value)

/-- The result type of an embedded native: `none` is a Rust panic,
`some` a returned `Result<Value, Error>`. -/
abbrev NativeResult := Option (Except Error Value)

/-- `HashMap::insert`, on the association-list model: the new binding
replaces any previous binding of the same key (last write wins). -/
def mapInsert (m : Entries) (k : Name) (v : Value) : Entries :=
  (k, v) :: m.filter (fun p => p.1 != k)

/-- `HashMap::remove`, on the association-list model. -/
def mapRemove (m : Entries) (k : Name) : Entries :=
  m.filter (fun p => p.1 != k)

/-- `HashMap::get`, on the association-list model. -/
def mapGet (m : Entries) (k : Name) : Option Value :=
  (m.find? (fun p => p.1 == k)).map (fun p => p.2)

/-- `HashMap::contains_key`, on the association-list model. -/
def mapContains (m : Entries) (k : Name) : Bool :=
  m.any (fun p => p.1 == k)

@[simp] theorem mapGet_insert_self (m : Entries) (k : Name) (v : Value) :
    mapGet (mapInsert m k v) k = some v := by
  simp [mapGet, mapInsert]

@[simp] theorem mapContains_remove_self (m : Entries) (k : Name) :
    mapContains (mapRemove m k) k = false := by
  induction m with
  | nil => rfl
  | cons p rest ih =>
    by_cases h : p.1 = k
    · have hdrop : mapRemove (p :: rest) k = mapRemove rest k := by
        simp [mapRemove, List.filter, h]
      rw [hdrop]; exact ih
    · have hne : (p.1 != k) = true := by simp [h]
      have hkeep : mapRemove (p :: rest) k = p :: mapRemove rest k := by
        simp [mapRemove, List.filter, hne]
      have h2 : (p.1 == k) = false := by simp [h]
      rw [hkeep, mapContains, List.any_cons, h2]
      simp only [Bool.false_or]
      exact ih

/-! ## Map natives (core.rs lines 211-377)

`core_hashmap`, `operator_assoc`, `operator_dissoc`, `operator_map_get`
and `operator_has_key`.  Each takes the printer's display function
`disp` (used only inside error messages, where the source calls
`Printer::str_name`) and the name pool `names`. -/

/-- The shared key/value insertion loop of `core_hashmap` and
`operator_assoc` (core.rs lines 218-229 and 246-257): walk the flattened
kv list two at a time; a `Keyword` or `Sym` key is used by its `Name`, a
`Str` key is interned on the fly, any other key value is rejected.  The
singleton case is unreachable (both callers have already checked the
list has even length); it is mapped to `none` because the source would
index `v[i+1]` out of bounds there. -/
def kvLoop (disp : Value → String) (names : NamePool) :
    List Value → Entries → Option (Except Error Entries)
  | [], m => some (.ok m)
  | k :: val :: rest, m =>
    match k with
    | .keyword s => kvLoop disp names rest (mapInsert m s val)
    | .sym s => kvLoop disp names rest (mapInsert m s val)
    | .str s => kvLoop disp names rest (mapInsert m (names.add s) val)
    | x => some (.error (.domainErr
        ("Value " ++ disp x ++ " can't be used as key")))
  | [_], _ => none

/-- `core_hashmap` (core.rs lines 211-231): odd-length kv list is a
`KwArgErr` named "hash-map"; otherwise fold the kv pairs into a fresh
map. -/
def core_hashmap (disp : Value → String) (names : NamePool)
    (v : List Value) : NativeResult :=
  if v.length % 2 != 0 then
    some (.error (.kwArgErr (some "hash-map")))
  else
    match kvLoop disp names v [] with
    | none => none
    | some (.ok m) => some (.ok (.map m))
    | some (.error e) => some (.error e)

/-- `operator_assoc` (core.rs lines 233-259): clone the map argument
(`TypeErr` if it is not a map), then require an even number of remaining
arguments (`KwArgErr` named "assoc") and insert the kv pairs. -/
def operator_assoc (disp : Value → String) (names : NamePool) :
    List Value → NativeResult
  | v0 :: rest =>
    match v0 with
    | .map m =>
      if rest.length % 2 != 0 then
        some (.error (.kwArgErr (some "assoc")))
      else
        match kvLoop disp names rest m with
        | none => none
        | some (.ok m') => some (.ok (.map m'))
        | some (.error e) => some (.error e)
    | x => some (.error (.typeErr "map" (some x)))
  | [] => none

/-- The key-removal loop of `operator_dissoc` (core.rs lines 302-312). -/
def dissocLoop (disp : Value → String) (names : NamePool) :
    List Value → Entries → Except Error Entries
  | [], m => .ok m
  | k :: rest, m =>
    match k with
    | .keyword s => dissocLoop disp names rest (mapRemove m s)
    | .sym s => dissocLoop disp names rest (mapRemove m s)
    | .str s => dissocLoop disp names rest (mapRemove m (names.add s))
    | x => .error (.domainErr
        ("Value " ++ disp x ++ " can't be used as key"))

/-- `operator_dissoc` (core.rs lines 293-314): clone the map argument
(`TypeErr` if not a map), then remove each given key (string keys are
interned before removal). -/
def operator_dissoc (disp : Value → String) (names : NamePool) :
    List Value → NativeResult
  | v0 :: keys =>
    match v0 with
    | .map m =>
      match dissocLoop disp names keys m with
      | .ok m' => some (.ok (.map m'))
      | .error e => some (.error e)
    | x => some (.error (.typeErr "map" (some x)))
  | [] => none

/-- `operator_map_get` (core.rs lines 316-343), the `get-key` native:
a present key's value is returned; an absent key is an error naming the
key (`Key <id> is not present in map` with the raw intern number for a
`Sym`/`Keyword` key, the string itself for a `Str` key) — the spec's
`KeyNotFound{key}` kind (the `From<String>` conversion lives in the
missing error.rs; modelled from the spec here).  A non-key value is
rejected with a `DomainError`, a non-map first argument with a
`TypeErr`. -/
def operator_map_get (disp : Value → String) (names : NamePool) :
    List Value → NativeResult
  | a :: b :: _ =>
    some (match a with
    | .map m =>
      match b with
      | .keyword s =>
        match mapGet m s with
        | some v => .ok v
        | none => .error (.keyNotFound
            ("Key " ++ toString s ++ " is not present in map"))
      | .sym s =>
        match mapGet m s with
        | some v => .ok v
        | none => .error (.keyNotFound
            ("Key " ++ toString s ++ " is not present in map"))
      | .str s =>
        match mapGet m (names.add s) with
        | some v => .ok v
        | none => .error (.keyNotFound
            ("Key " ++ s ++ " is not present in map"))
      | x => .error (.domainErr
          ("Value " ++ disp x ++ " can't be used as key"))
    | x => .error (.typeErr "map" (some x)))
  | _ => none

/-- `operator_has_key` (core.rs lines 345-363): `True`/`False` according
to `contains_key`, with the same key-kind handling as `get-key`. -/
def operator_has_key (disp : Value → String) (names : NamePool) :
    List Value → NativeResult
  | a :: b :: _ =>
    some (match a with
    | .map m =>
      match b with
      | .keyword s => .ok (if mapContains m s then .vtrue else .vfalse)
      | .sym s => .ok (if mapContains m s then .vtrue else .vfalse)
      | .str s =>
        .ok (if mapContains m (names.add s) then .vtrue else .vfalse)
      | x => .error (.domainErr
          ("Value " ++ disp x ++ " can't be used as key"))
    | x => .error (.typeErr "map" (some x)))
  | _ => none

/-- The `Name` a key value denotes: `Sym`/`Keyword` by their identifier,
`Str` by interning; `none` for anything else.  This is the key handling
shared by every map native above. -/
def keyNameOf (names : NamePool) : Value → Option Name
  | .sym s => some s
  | .keyword s => some s
  | .str s => some (names.add s)
  | _ => none

/-! ## Sequence capability and persistent list natives -/

/-- Modelled from the spec: `Value::first` (types.rs is not under src/),
section 4.3: `Nil` and the empty `List` give `Nil`, a non-empty `List`
gives element 0, a `Lazy` cell gives its forced head, anything else is a
`TypeErr`.  `operator_head` (core.rs line 120-122) delegates to it. -/
def valueFirst : Value → Except Error Value
  | .nil => .ok .nil
  | .list [] => .ok .nil
  | .list (x :: _) => .ok x
  | .lazy h _ => .ok h
  | x => .error (.typeErr "collection" (some x))

/-- Modelled from the spec: `Value::rest` (types.rs is not under src/),
section 4.3: `Nil` and the empty `List` give `Nil`, a non-empty `List`
gives a new `List` of elements 1.., a `Lazy` cell is forced one step and
the resulting cell or terminal value is returned, anything else is a
`TypeErr`.  `operator_tail` (core.rs line 171-173) delegates to it. -/
def valueRest : Value → Except Error Value
  | .nil => .ok .nil
  | .list [] => .ok .nil
  | .list (_ :: t) => .ok (.list t)
  | .lazy _ (.step h next) => .ok (.lazy h next)
  | .lazy _ (.stop v) => .ok v
  | .lazy _ (.fail e) => .error e
  | x => .error (.typeErr "collection" (some x))

/-- `operator_head` (core.rs lines 120-122): `v[0].first()`. -/
def operator_head : List Value → NativeResult
  | a :: _ => some (valueFirst a)
  | [] => none

/-- `operator_tail` (core.rs lines 171-173): `v[0].rest(names)`. -/
def operator_tail : List Value → NativeResult
  | a :: _ => some (valueRest a)
  | [] => none

/-- `operator_cons` (core.rs lines 175-190): prepend `v[0]` to the list
or `Nil` in `v[1]`, always allocating a fresh list; a non-list second
argument is an error naming the value. -/
def operator_cons (disp : Value → String) : List Value → NativeResult
  | x :: tgt :: _ =>
    some (match tgt with
    | .list l =>
      if l.length = 0 then .ok (.list [x]) else .ok (.list (x :: l))
    | .nil => .ok (.list [x])
    | t => .error (.domainErr ("Can't cons to a non-list " ++ disp t)))
  | _ => none

/-- `operator_len` (core.rs lines 533-541), the `len` native: element
count for a `List`, character count for `Chars`, byte length (Rust
`str::len`) for a `Str`, 0 for `Nil`; everything else — including
`Lazy`, `Map` and `Struct` — is a `TypeErr`. -/
def operator_len : List Value → NativeResult
  | a :: _ =>
    some (match a with
    | .list l => .ok (.num l.length)
    | .chars cs => .ok (.num cs.length)
    | .str s => .ok (.num s.utf8ByteSize)
    | .nil => .ok (.num 0)
    | x => .error (.typeErr "list, chars or string" (some x)))
  | [] => none

/-! ## Lazy sequence engine (core.rs lines 124-169 and 591-613) -/

/-- Whether a forcing trace ends in a terminal value (as opposed to an
evaluation error).  Finiteness is built into `Forcing` itself. -/
def Forcing.ok : Forcing → Bool
  | .stop _ => true
  | .step _ next => next.ok
  | .fail _ => false

/-- The heads a forcing trace yields, in chain order (the head of the
initial cell is not part of its tail's trace). -/
def forcingHeads : Forcing → List Value
  | .stop _ => []
  | .step h next => h :: forcingHeads next
  | .fail _ => []

/-- The stepping loop of `operator_nth`'s `Lazy` arm (core.rs lines
146-162): decrement `count`, force one step; a `Lazy` result yields its
head once `count` reaches 0 and otherwise continues, a terminal result
yields `Nil`, an evaluation error propagates (`eval(..)?`).  Entered
with `count ≥ 1`. -/
def nthLoop : Forcing → Nat → Except Error Value
  | .fail e, _ => .error e
  | .stop _, _ => .ok .nil
  | .step h next, count =>
    if count - 1 = 0 then .ok h else nthLoop next (count - 1)

/-- `operator_nth` (core.rs lines 124-169): the index is `v[1] as usize`
(modelled by `Int.toNat`, saturating at 0 like Rust's float-to-int
cast); a `List` is indexed directly, out of range giving `Nil` (the
`Option`-to-`Value` conversion lives in the missing types.rs; the spec,
section 4.5, fixes it to `Nil`); `Nil` gives `Nil`; a `Lazy` cell
returns its own head at index 0 and otherwise steps with `nthLoop`. -/
def operator_nth : List Value → NativeResult
  | a :: b :: _ =>
    some (match b with
    | .num n =>
      let idx := n.toNat
      match a with
      | .list l =>
        if l.length = 0 then .ok .nil else .ok (l.getD idx .nil)
      | .nil => .ok .nil
      | .lazy h tail =>
        if idx = 0 then .ok h else nthLoop tail idx
      | x => .error (.typeErr "collection" (some x))
    | x => .error (.typeErr "number" (some x)))
  | _ => none

/-- The accumulation loop of `core_collect`'s `Lazy` arm (core.rs lines
600-609): force repeatedly, pushing each head, until a terminal value
appears; an evaluation error propagates. -/
def collectLoop (acc : List Value) : Forcing → Except Error Value
  | .stop _ => .ok (.list acc)
  | .step h next => collectLoop (acc ++ [h]) next
  | .fail e => .error e

/-- `core_collect` (core.rs lines 591-613): a `List` or `Nil` is
returned unchanged; a `Lazy` chain is forced to completion with its
heads accumulated in order, starting from the initial cell's own head;
anything else is a `TypeErr`. -/
def core_collect : List Value → NativeResult
  | a :: _ =>
    some (match a with
    | .list l => .ok (.list l)
    | .nil => .ok .nil
    | .lazy h tail => collectLoop [h] tail
    | x => .error (.typeErr "list" (some x)))
  | [] => none

/-! ## Comparison operators (core.rs lines 21-41 and 945-948) -/

/-- The iteration of the `ord_op!` macro after the first argument has
been read: each further element must be a number; on a successful
comparison the left operand advances, on a failed one `False` is
returned immediately; `True` when the chain is exhausted. -/
def ordLoop (op : Int → Int → Bool) (left : Int) :
    List Value → Except Error Value
  | [] => .ok .vtrue
  | e :: rest =>
    match e with
    | .num n => if op left n then ordLoop op n rest else .ok .vfalse
    | x => .error (.typeErr "number" (some x))

/-- The `ord_op!` macro (core.rs lines 21-41), the shared body of the
`<`, `>`, `<=`, `>=` natives: it reads `v[0]` unconditionally, so an
empty argument list panics with an out-of-bounds index (`none`). -/
def ord_op (op : Int → Int → Bool) : List Value → NativeResult
  | [] => none
  | x :: rest =>
    some (match x with
    | .num n => ordLoop op n rest
    | e => .error (.typeErr "number" (some e)))

/-- The `Arity` the registry `ns()` declares for each of `<`, `>`, `<=`
and `>=` (core.rs lines 945-948): `Arity::Min(0)`. -/
def ordOpArity : Arity := .min 0

/-! ## chars/slice (core.rs lines 893-914) -/

/-- `core_chars_slice`: with two arguments `&chars[start..]` and with
three `&chars[start..end]` (an empty three-argument slice becoming
`Nil`); Rust slice indexing panics (`none`) when `start > len`,
`start > end` or `end > len`, and the float indices convert by
saturation (`Int.toNat`).  Wrong argument types or counts give the
free-form "arguments are invalid" error. -/
def core_chars_slice : List Value → NativeResult
  | [a, b] =>
    match a, b with
    | .chars cs, .num start =>
      let s := start.toNat
      if s ≤ cs.length then some (.ok (.chars (cs.drop s))) else none
    | _, _ => some (.error (.domainErr "arguments are invalid"))
  | [a, b, c] =>
    match a, b, c with
    | .chars cs, .num start, .num stop =>
      let s := start.toNat
      let e := stop.toNat
      if s ≤ e ∧ e ≤ cs.length then
        let slice := (cs.drop s).take (e - s)
        some (if slice.length = 0 then .ok .nil else .ok (.chars slice))
      else none
    | _, _, _ => some (.error (.domainErr "arguments are invalid"))
  | _ => some (.error (.domainErr "arguments are invalid"))

/-! ## Box natives (core.rs lines 1010-1031) -/

/-- The `swap-box` native (core.rs lines 1016-1027).  `app` is the
`Value::apply` boundary (types.rs is not under src/; the spec, section
6, makes it an external callback).  The box's cell is read from the
store, `v[1]` is applied to the current content followed by the extra
arguments, the result is stored back, and the returned value is `v[1]`
itself — the function, not the new content.  A non-box first argument is
an error; fewer than two arguments would panic on indexing. -/
def swap_box (app : Value → List Value → Except Error Value)
    (store : List Value) : List Value →
    Option (Except Error (List Value × Value))
  | b :: f :: extra =>
    some (match b with
    | .box i =>
      let args := store.getD i .nil :: extra
      match app f args with
      | .ok newValue => .ok (store.set i newValue, f)
      | .error e => .error e
    | _ => .error (.domainErr "Value is not a box"))
  | _ => none

/-! ## Template formatter (core.rs lines 615-717)

`core_format` is a single left-to-right scan over the template's
characters with a positional argument cursor starting at 1.  The nested
`loop`s of the source become the mutually recursive `formatLoop` (the
outer scan) and `formatDirective` (what follows an opening brace). -/

/-- The recurring error message of `core_format`. -/
def invalidFmt : String := "Invalid syntax in format string"

/-- The separator-collecting inner loop of the `@` directive (core.rs
lines 655-664): push characters until a closing brace, which is
consumed; running out of characters is a failure. -/
def sepScan : List Char → String → Option (String × List Char)
  | [], _ => none
  | c :: rest, acc =>
    if c = '\x7d' then some (acc, rest) else sepScan rest (acc.push c)

theorem sepScan_length (cs : List Char) (acc s : String)
    (rest : List Char) (h : sepScan cs acc = some (s, rest)) :
    rest.length < cs.length := by
  induction cs generalizing acc with
  | nil => simp [sepScan] at h
  | cons c cs ih =>
    rw [sepScan] at h
    by_cases hc : c = '\x7d'
    · simp only [hc, if_pos rfl] at h
      cases h
      simp
    · rw [if_neg hc] at h
      exact Nat.lt_trans (ih _ h) (by simp)

/-- Rust's `Debug` escaping for one character, as used by the `{:?}`
format of a `String` (`core_format` applies it to the printer's repr
output in the debug branches of the `@` directive, core.rs line 681 and
683).  The common escapes are modelled; other characters pass through
verbatim (no theorem below exercises them). -/
def rustDebugChar (c : Char) : String :=
  if c = '"' then "\\\""
  else if c = '\\' then "\\\\"
  else if c = '\n' then "\\n"
  else if c = '\t' then "\\t"
  else if c = '\r' then "\\r"
  else String.singleton c

/-- Rust's `format!("{:?}", s)` for a string `s`: quoted and escaped. -/
def rustDebugStr (s : String) : String :=
  "\"" ++ String.join (s.data.map rustDebugChar) ++ "\""

/-- How the `@` directive renders one element after the first (core.rs
lines 679-685): with a separator, `sep` then the element (the debug
branch passes the repr text through `{:?}`, quoting it — a quirk kept
as-is); without one, the element alone. -/
def renderElem (disp rep : Value → String) (debug : Bool)
    (sep : Option String) (e : Value) : String :=
  match sep with
  | some s => if debug then s ++ rustDebugStr (rep e) else s ++ disp e
  | none => if debug then rustDebugStr (rep e) else disp e

/-- How the `@` directive renders a whole list (core.rs lines 671-685):
the first element plain via display or repr, each subsequent element via
`renderElem`. -/
def renderList (disp rep : Value → String) (debug : Bool)
    (sep : Option String) : List Value → String
  | [] => ""
  | x :: rest =>
    rest.foldl (fun acc e => acc ++ renderElem disp rep debug sep e)
      (if debug then rep x else disp x)

mutual

/-- The outer scanning loop of `core_format` (core.rs lines 623-713):
a literal character copies through, `\x7d\x7d` escapes to a literal
closing brace (a lone closing brace is an error), an opening brace
hands over to `formatDirective` after the optional `?` debug marker. -/
def formatLoop (disp rep : Value → String) (v : List Value)
    (cs : List Char) (current : Nat) (acc : String) :
    Except Error String :=
  match cs with
  | [] => .ok acc
  | c0 :: rest =>
    if c0 = '\x7b' then
      match rest with
      | [] => .error (.domainErr invalidFmt)
      | c1 :: rest1 =>
        if c1 = '?' then
          match rest1 with
          | [] => .error (.domainErr invalidFmt)
          | c2 :: rest2 =>
            formatDirective disp rep v true c2 rest2 current acc
        else formatDirective disp rep v false c1 rest1 current acc
    else if c0 = '\x7d' then
      match rest with
      | c1 :: rest1 =>
        if c1 = '\x7d' then
          formatLoop disp rep v rest1 current (acc.push '\x7d')
        else .error (.domainErr invalidFmt)
      | [] => .error (.domainErr invalidFmt)
    else formatLoop disp rep v rest current (acc.push c0)
termination_by 2 * cs.length
decreasing_by
  all_goals simp_wf
  all_goals omega

/-- The directive body after `\x7b` and the optional `?` (core.rs lines
637-702): a closing brace consumes and renders the next positional
argument; `@` renders a list argument with an optional separator — note
that in the bare no-separator case the peeked closing brace is NOT
consumed (the source's consuming match is commented out, core.rs lines
693-696), so the scan continues at that closing brace; a second opening
brace emits a literal one; anything else is invalid syntax. -/
def formatDirective (disp rep : Value → String) (v : List Value)
    (debug : Bool) (ch : Char) (restN : List Char) (current : Nat)
    (acc : String) : Except Error String :=
  if ch = '\x7d' then
    match v.get? current with
    | some e =>
      formatLoop disp rep v restN (current + 1)
        (acc ++ (if debug then rep e else disp e))
    | none => .error (.domainErr "Value expected to format string not found")
  else if ch = '@' then
    match restN with
    | [] => .error (.domainErr invalidFmt)
    | c2 :: rest2 =>
      if c2 = '\x7d' then
        match v.get? current with
        | some (.list l) =>
          formatLoop disp rep v (c2 :: rest2) (current + 1)
            (acc ++ renderList disp rep debug none l)
        | some _ => .error (.domainErr
            "Value expected to slice in format string must be a list")
        | none => .error (.domainErr
            "Value expected to format string not found")
      else
        match hs : sepScan (c2 :: rest2) "" with
        | some (s, rest') =>
          match v.get? current with
          | some (.list l) =>
            formatLoop disp rep v rest' (current + 1)
              (acc ++ renderList disp rep debug (some s) l)
          | some _ => .error (.domainErr
              "Value expected to slice in format string must be a list")
          | none => .error (.domainErr
              "Value expected to format string not found")
        | none => .error (.domainErr
            "Invalid syntax in format string expected closing \x7d")
  else if ch = '\x7b' then
    formatLoop disp rep v restN current (acc.push '\x7b')
  else .error (.domainErr invalidFmt)
termination_by 2 * restN.length + 3
decreasing_by
  all_goals simp_wf
  all_goals first
  | omega
  | (rename_i hs; have := sepScan_length _ _ _ _ hs;
     simp only [List.length_cons] at *; omega)

end

/-- `core_format` (core.rs lines 615-717): `v[0]` must be the template
string; the scan starts at its characters with cursor 1 and an empty
output.  An empty argument vector would panic on `&v[0]`. -/
def core_format (disp rep : Value → String) : List Value → NativeResult
  | t :: rest =>
    match t with
    | .str s =>
      some (match formatLoop disp rep (.str s :: rest) s.data 1 "" with
      | .ok r => .ok (.str r)
      | .error e => .error e)
    | _ => some (.error (.domainErr
        "format requires a format string argument"))
  | [] => none

/-- The spec's words for the separator rendering of the `@` directive
(section 4.7): the first element plain, each subsequent element prefixed
by the separator.  Used to state the amended claim C7 against
`renderList`. -/
def specJoin (sep : String) : List String → String
  | [] => ""
  | x :: rest => rest.foldl (fun acc e => acc ++ sep ++ e) x

/-- A concrete display function standing in for the external printer's
`Printer::str_name` in witnesses and counterexamples (the printer is an
external collaborator per spec sections 1 and 6): numbers render as
their decimal text, strings as their content. -/
def dispTest : Value → String
  | .num n => toString n
  | .str s => s
  | _ => ""

/-- A concrete debug-rendering function standing in for the printer's
`Printer::repr_name` in witnesses and counterexamples. -/
def repTest : Value → String
  | .num n => toString n
  | .str s => "\"" ++ s ++ "\""
  | _ => ""

/-- A concrete name pool standing in for the process-wide pool in
witnesses: interning maps a string to its length (any function respects
the pool invariant that equal strings intern equally). -/
def poolTest : NamePool := ⟨String.length, fun _ => ""⟩

/-! ## Claims -/

/-- C8: `length` (the `len` native) returns 0 for `Nil`, the element
count for a `List`, the character count for `Chars`, and the raw byte
length for `Str` (character count and byte length may differ for
multi-byte text), and returns a `TypeError` for every `Lazy`, `Map` or
`Struct` input. -/
theorem len_cases (l : List Value) (cs : List Char) (s : String)
    (m : Entries) (sid : String) (fs : List Value) (hd : Value)
    (f : Forcing) :
    operator_len [Value.nil] = some (.ok (.num 0)) ∧
    operator_len [Value.list l] = some (.ok (.num l.length)) ∧
    operator_len [Value.chars cs] = some (.ok (.num cs.length)) ∧
    operator_len [Value.str s] = some (.ok (.num s.utf8ByteSize)) ∧
    operator_len [Value.lazy hd f] =
      some (.error (.typeErr "list, chars or string" (some (.lazy hd f)))) ∧
    operator_len [Value.map m] =
      some (.error (.typeErr "list, chars or string" (some (.map m)))) ∧
    operator_len [Value.strct sid fs] =
      some (.error (.typeErr "list, chars or string"
        (some (.strct sid fs)))) :=
  ⟨rfl, rfl, rfl, rfl, rfl, rfl, rfl⟩

/-- C9: `chars/slice` does NOT report invalid slice bounds as a
`DomainError`: out-of-range or inverted numeric bounds reach Rust's
slice indexing and panic (`none`), aborting instead of returning to the
caller.  In-range bounds do succeed. -/
theorem chars_slice_bounds_panic :
    core_chars_slice [Value.chars ['a', 'b', 'c'], Value.num 5] = none ∧
    core_chars_slice [Value.chars ['a', 'b'], Value.num 0, Value.num 5] =
      none ∧
    core_chars_slice [Value.chars ['a', 'b'], Value.num 2, Value.num 1] =
      none ∧
    core_chars_slice [Value.chars ['a', 'b', 'c'], Value.num 1] =
      some (.ok (.chars ['b', 'c'])) :=
  ⟨rfl, rfl, rfl, rfl⟩

/-- C10: the comparison natives `<`, `>`, `<=`, `>=` are registered with
arity `Min(0)`, which accepts zero arguments, yet their shared `ord_op!`
body indexes `v[0]` unconditionally: applied to an empty argument list
they panic (`none`) instead of returning a `Result`. -/
theorem ord_zero_args_panic :
    Arity.matches ordOpArity 0 = true ∧
    ord_op (fun a b => decide (a < b)) [] = none ∧
    ord_op (fun a b => decide (a > b)) [] = none ∧
    ord_op (fun a b => decide (a ≤ b)) [] = none ∧
    ord_op (fun a b => decide (a ≥ b)) [] = none :=
  ⟨rfl, rfl, rfl, rfl, rfl⟩

/-- C5 (amended): `first(cons(x, L))` is `x` for both a `List` and a
`Nil` second argument, and `rest(cons(x, L))` equals `L` when `L` is a
`List`; when `L` is `Nil`, `rest(cons(x, Nil))` is the empty `List` — an
empty sequence, but not the value `Nil` itself.  All operations allocate
fresh values; inputs are never mutated (every embedded operation is a
pure function). -/
theorem cons_first_rest (disp : Value → String) (x : Value)
    (l : List Value) :
    operator_cons disp [x, .list l] = some (.ok (.list (x :: l))) ∧
    operator_head [.list (x :: l)] = some (.ok x) ∧
    operator_tail [.list (x :: l)] = some (.ok (.list l)) ∧
    operator_cons disp [x, .nil] = some (.ok (.list [x])) ∧
    operator_tail [.list [x]] = some (.ok (.list ([] : List Value))) := by
  refine ⟨?_, rfl, rfl, rfl, rfl⟩
  cases l with
  | nil => rfl
  | cons y t => rfl

/-- C5 counterexample: at `x = 1`, `L = Nil`, `rest(cons(x, L))` is the
empty `List`, which is a different value from `L = Nil`, so
`rest(cons(x, L)) = L` fails for the `Nil` case of the claim. -/
theorem cons_nil_rest_not_nil :
    operator_cons dispTest [Value.num 1, Value.nil] =
      some (.ok (.list [.num 1])) ∧
    operator_tail [Value.list [.num 1]] =
      some (.ok (.list ([] : List Value))) ∧
    Value.list [] ≠ Value.nil :=
  ⟨rfl, rfl, fun h => Value.noConfusion h⟩

/-- C6: `swap-box` applies its function argument to the box's current
content followed by the extra arguments, stores the result as the box's
new content, and returns the function argument itself — not the newly
stored value. -/
theorem swap_box_stores_and_returns_fn
    (app : Value → List Value → Except Error Value) (store : List Value)
    (i : Nat) (c f nv : Value) (extra : List Value)
    (hc : store.get? i = some c)
    (happ : app f (c :: extra) = .ok nv) :
    swap_box app store (.box i :: f :: extra) =
      some (.ok (store.set i nv, f)) := by
  have hc' : store[i]? = some c := by
    simpa [List.get?_eq_getElem?] using hc
  simp [swap_box, List.getD, hc', happ]

/-- A concrete `Value::apply` callback for the C6 witness: every
application returns 9. -/
def appTest : Value → List Value → Except Error Value :=
  fun _ _ => .ok (.num 9)

/-- Witness for C6 at a concrete store and applier. -/
theorem swap_box_witness :
    ([Value.num 1].get? 0 = some (Value.num 1)) ∧
    (appTest (.natFunc "f" (.exact 1)) [Value.num 1] = .ok (.num 9)) ∧
    swap_box appTest [Value.num 1]
        [.box 0, .natFunc "f" (.exact 1)] =
      some (.ok ([Value.num 9], .natFunc "f" (.exact 1))) :=
  ⟨rfl, rfl,
    swap_box_stores_and_returns_fn appTest [Value.num 1]
      0 (.num 1) (.natFunc "f" (.exact 1)) (.num 9) [] rfl rfl⟩

/-- C3: a flattened key/value argument list of odd length makes
`hash-map` return `KwArgErr("hash-map")` and makes `assoc` (counting the
arguments after its map argument) return `KwArgErr("assoc")`; neither
produces a map. -/
theorem odd_kv_args_error (disp : Value → String) (names : NamePool)
    (v kvs : List Value) (m : Entries)
    (hv : v.length % 2 = 1) (hkvs : kvs.length % 2 = 1) :
    core_hashmap disp names v =
      some (.error (.kwArgErr (some "hash-map"))) ∧
    operator_assoc disp names (.map m :: kvs) =
      some (.error (.kwArgErr (some "assoc"))) := by
  constructor
  · rw [core_hashmap, hv]
    rfl
  · rw [operator_assoc]
    rw [hkvs]
    rfl

/-- Witness for C3 at concrete odd-length argument lists. -/
theorem odd_kv_args_error_witness :
    ([Value.keyword 0].length % 2 = 1) ∧
    ([Value.keyword 1].length % 2 = 1) ∧
    core_hashmap dispTest poolTest [Value.keyword 0] =
      some (.error (.kwArgErr (some "hash-map"))) ∧
    operator_assoc dispTest poolTest [Value.map [], Value.keyword 1] =
      some (.error (.kwArgErr (some "assoc"))) := by
  have h := odd_kv_args_error dispTest poolTest [Value.keyword 0]
    [Value.keyword 1] [] rfl rfl
  exact ⟨rfl, rfl, h.1, h.2⟩

/-- The text by which `get-key`'s not-found message identifies a key:
the raw intern number for `Sym`/`Keyword` keys (core.rs line 335 prints
`s.0`), the string itself for `Str` keys (line 339). -/
def keyIdText : Value → String
  | .sym s => toString s
  | .keyword s => toString s
  | .str s => s
  | _ => ""

/-- C4: `get` (the `get-key` native) on a map that does not contain a
valid key (`Sym`, `Keyword` or `Str`) returns a `KeyNotFound` error
whose message identifies the key — an error, never `Nil`. -/
theorem get_absent_key_error (disp : Value → String) (names : NamePool)
    (m : Entries) (k : Value) (n : Name)
    (hk : keyNameOf names k = some n) (habs : mapGet m n = none) :
    operator_map_get disp names [.map m, k] =
      some (.error (.keyNotFound
        ("Key " ++ keyIdText k ++ " is not present in map"))) := by
  cases k <;> simp [keyNameOf] at hk
  · subst hk; simp [operator_map_get, habs, keyIdText]
  · subst hk; simp [operator_map_get, habs, keyIdText]
  · rw [← hk] at habs; simp [operator_map_get, habs, keyIdText]

/-- Witness for C4 at an empty map and a concrete keyword key. -/
theorem get_absent_key_error_witness :
    (keyNameOf poolTest (.keyword 3) = some 3) ∧
    (mapGet [] 3 = none) ∧
    operator_map_get dispTest poolTest [.map [], .keyword 3] =
      some (.error (.keyNotFound
        ("Key " ++ keyIdText (.keyword 3) ++ " is not present in map"))) :=
  ⟨rfl, rfl, get_absent_key_error dispTest poolTest [] (.keyword 3) 3 rfl rfl⟩

/-- C2: the map round-trip: `assoc` of a valid key `k` and value `v`
onto any map yields a map from which `get` returns `v` at `k`, and after
`dissoc` of `k` from that map, `has-key?` at `k` is `False`. -/
theorem map_roundtrip (disp : Value → String) (names : NamePool)
    (m : Entries) (k v : Value) (n : Name)
    (hk : keyNameOf names k = some n) :
    operator_assoc disp names [.map m, k, v] =
      some (.ok (.map (mapInsert m n v))) ∧
    operator_map_get disp names [.map (mapInsert m n v), k] =
      some (.ok v) ∧
    operator_dissoc disp names [.map (mapInsert m n v), k] =
      some (.ok (.map (mapRemove (mapInsert m n v) n))) ∧
    operator_has_key disp names
        [.map (mapRemove (mapInsert m n v) n), k] =
      some (.ok .vfalse) := by
  cases k <;> simp [keyNameOf] at hk
  · subst hk
    refine ⟨?_, ?_, ?_, ?_⟩
    · simp [operator_assoc, kvLoop]
    · simp [operator_map_get]
    · simp [operator_dissoc, dissocLoop]
    · simp [operator_has_key]
  · subst hk
    refine ⟨?_, ?_, ?_, ?_⟩
    · simp [operator_assoc, kvLoop]
    · simp [operator_map_get]
    · simp [operator_dissoc, dissocLoop]
    · simp [operator_has_key]
  · subst hk
    refine ⟨?_, ?_, ?_, ?_⟩
    · simp [operator_assoc, kvLoop]
    · simp [operator_map_get]
    · simp [operator_dissoc, dissocLoop]
    · simp [operator_has_key]

/-- Witness for C2 at a concrete pool, map, string key and value. -/
theorem map_roundtrip_witness :
    (keyNameOf poolTest (.str "ab") = some 2) ∧
    operator_assoc dispTest poolTest
        [.map [(2, .num 5)], .str "ab", .num 7] =
      some (.ok (.map (mapInsert [(2, .num 5)] 2 (.num 7)))) ∧
    operator_map_get dispTest poolTest
        [.map (mapInsert [(2, .num 5)] 2 (.num 7)), .str "ab"] =
      some (.ok (.num 7)) ∧
    operator_has_key dispTest poolTest
        [.map (mapRemove (mapInsert [(2, .num 5)] 2 (.num 7)) 2),
          .str "ab"] =
      some (.ok .vfalse) := by
  have h := map_roundtrip dispTest poolTest [(2, .num 5)] (.str "ab")
    (.num 7) 2 rfl
  exact ⟨rfl, h.1, h.2.1, h.2.2.2⟩

/-- The accumulation loop of `core_collect` yields the accumulator
followed by every head of a terminating forcing trace. -/
theorem collectLoop_ok : ∀ (f : Forcing), f.ok = true →
    ∀ acc : List Value,
      collectLoop acc f = .ok (.list (acc ++ forcingHeads f))
  | .stop _, _, acc => by simp [collectLoop, forcingHeads]
  | .step hd next, hok, acc => by
    have ih := collectLoop_ok next (by simpa [Forcing.ok] using hok)
      (acc ++ [hd])
    rw [collectLoop, ih]
    simp [forcingHeads]
  | .fail _, hok, _ => by simp [Forcing.ok] at hok

/-- The stepping loop of `operator_nth` yields head `i - 1` of a
terminating forcing trace when entered with `count = i ≥ 1` and the
trace is long enough. -/
theorem nthLoop_ok : ∀ (f : Forcing), f.ok = true → ∀ i : Nat,
    1 ≤ i → i - 1 < (forcingHeads f).length →
    nthLoop f i = .ok ((forcingHeads f).getD (i - 1) .nil)
  | .stop _, _, i, _, hlen => by simp [forcingHeads] at hlen
  | .fail _, hok, _, _, _ => by simp [Forcing.ok] at hok
  | .step hd next, hok, i, h1, hlen => by
    rw [nthLoop]
    by_cases hi : i - 1 = 0
    · simp [hi, forcingHeads]
    · have ihlen : (i - 1) - 1 < (forcingHeads next).length := by
        simp [forcingHeads] at hlen
        omega
      have ih := nthLoop_ok next (by simpa [Forcing.ok] using hok)
        (i - 1) (by omega) ihlen
      rw [if_neg hi, ih, forcingHeads]
      obtain ⟨j, hj⟩ : ∃ j, i - 1 = j + 1 := ⟨i - 2, by omega⟩
      rw [hj]
      simp [List.getD_cons_succ]

/-- C1: on a `Lazy` chain whose forcing terminates, `collect` returns
the `List` of all `n` heads in chain order (the initial cell's head
followed by the heads of its forcing trace), and `nth` at every index
`i < n` returns element `i` of that list. -/
theorem lazy_collect_nth (hd : Value) (f : Forcing) (hok : f.ok = true)
    (i : Nat) (hi : i < (hd :: forcingHeads f).length) :
    core_collect [.lazy hd f] =
      some (.ok (.list (hd :: forcingHeads f))) ∧
    operator_nth [.lazy hd f, .num (i : Int)] =
      some (.ok ((hd :: forcingHeads f).getD i .nil)) := by
  constructor
  · rw [core_collect]
    rw [collectLoop_ok f hok [hd]]
    rfl
  · rw [operator_nth]
    simp only [Int.toNat_natCast]
    by_cases h0 : i = 0
    · simp [h0]
    · have hlen : i - 1 < (forcingHeads f).length := by
        simp at hi
        omega
      rw [if_neg h0, nthLoop_ok f hok i (by omega) hlen]
      obtain ⟨j, hj⟩ : ∃ j, i = j + 1 := ⟨i - 1, by omega⟩
      rw [hj]
      simp [List.getD_cons_succ]

/-- A concrete two-step forcing trace for the C1 witness: the chain
1, 2, 3 ending in the terminal `Nil`. -/
def chainTest : Forcing := .step (.num 2) (.step (.num 3) (.stop .nil))

/-- Witness for C1 at the concrete chain 1, 2, 3 and index 2. -/
theorem lazy_collect_nth_witness :
    (chainTest.ok = true) ∧
    (2 < (Value.num 1 :: forcingHeads chainTest).length) ∧
    core_collect [.lazy (.num 1) chainTest] =
      some (.ok (.list [.num 1, .num 2, .num 3])) ∧
    operator_nth [.lazy (.num 1) chainTest, .num 2] =
      some (.ok (.num 3)) := by
  have h := lazy_collect_nth (.num 1) chainTest rfl 2 (by decide)
  exact ⟨rfl, by decide, h.1, h.2⟩

/-- Scanning a brace-free separator followed by the closing brace
collects exactly the separator text and consumes the brace. -/
theorem sepScan_no_brace : ∀ (cs : List Char) (acc : List Char),
    '\x7d' ∉ cs →
    sepScan (cs ++ ['\x7d']) ⟨acc⟩ = some (⟨acc ++ cs⟩, [])
  | [], acc, _ => by simp [sepScan]
  | c :: cs, acc, h => by
    have hc : ¬(c = '\x7d') := fun e => h (by simp [e])
    rw [List.cons_append, sepScan, if_neg hc]
    have hrest : '\x7d' ∉ cs := fun hm => h (List.mem_cons_of_mem _ hm)
    have : (⟨acc⟩ : String).push c = ⟨acc ++ [c]⟩ := rfl
    rw [this, sepScan_no_brace cs (acc ++ [c]) hrest]
    simp

theorem foldl_sep_assoc (g : Value → String) (s : String) :
    ∀ (rest : List Value) (a : String),
      rest.foldl (fun acc e => acc ++ (s ++ g e)) a =
        rest.foldl (fun acc e => acc ++ s ++ g e) a
  | [], _ => rfl
  | e :: rest, a => by
    rw [List.foldl_cons, List.foldl_cons, foldl_sep_assoc g s rest,
      String.append_assoc]

/-- In display mode with a separator, the `@` directive's rendering is
exactly the spec's join: first element plain, each subsequent element
prefixed by the separator. -/
theorem renderList_display (disp rep : Value → String) (s : String)
    (l : List Value) :
    renderList disp rep false (some s) l = specJoin s (l.map disp) := by
  cases l with
  | nil => rfl
  | cons x rest =>
    rw [renderList, List.map_cons, specJoin, List.foldl_map]
    simp only [renderElem, Bool.false_eq_true, if_false]
    rw [foldl_sep_assoc]

/-- C7 counterexample: the bare `\x7b@\x7d` directive does not succeed:
the closing brace is never consumed, so the scan meets it again as a
literal character, finds no second closing brace behind it, and fails
with the malformed-template `DomainError`. -/
theorem format_bare_at_fails :
    core_format dispTest repTest
        [.str ⟨['\x7b', '@', '\x7d']⟩, .list [.num 1, .num 2, .num 3]] =
      some (.error (.domainErr invalidFmt)) := by
  simp [core_format, formatLoop, formatDirective]

/-- C7 (amended): a `\x7b@sep\x7d` directive with a non-empty separator
(that cannot itself contain a closing brace: the first such brace ends
it) and a `List` next positional argument succeeds and renders the
list's first element plain and each subsequent element prefixed by the
separator text; the bare no-separator form `\x7b@\x7d` instead fails
with a `DomainError` (see the counterexample), because its closing brace
is never consumed. -/
theorem format_sep_directive (disp rep : Value → String)
    (l : List Value) (sep : List Char) (hne : sep ≠ [])
    (hnb : '\x7d' ∉ sep) :
    core_format disp rep
        [.str ⟨'\x7b' :: '@' :: (sep ++ ['\x7d'])⟩, .list l] =
      some (.ok (.str (specJoin ⟨sep⟩ (l.map disp)))) := by
  obtain ⟨c, cs, rfl⟩ : ∃ c cs, sep = c :: cs := by
    cases sep with
    | nil => exact absurd rfl hne
    | cons c cs => exact ⟨c, cs, rfl⟩
  have hcb : ¬(c = '\x7d') := fun h => hnb (by simp [h])
  have hscan : sepScan (c :: (cs ++ ['\x7d'])) "" =
      some (⟨c :: cs⟩, []) := by
    have h0 := sepScan_no_brace (c :: cs) [] hnb
    rw [List.cons_append] at h0
    simpa using h0
  have hloop : formatLoop disp rep
      [.str ⟨'\x7b' :: '@' :: c :: (cs ++ ['\x7d'])⟩, .list l]
      ('\x7b' :: '@' :: c :: (cs ++ ['\x7d'])) 1 "" =
      .ok (specJoin ⟨c :: cs⟩ (l.map disp)) := by
    simp [formatLoop, formatDirective, hcb, renderList_display]
    split
    · rename_i s rest' hs2
      rw [hscan] at hs2
      simp at hs2
      obtain ⟨rfl, rfl⟩ := hs2
      simp [formatLoop]
    · rename_i hs2
      rw [hscan] at hs2
      simp at hs2
  simp [core_format, hloop]

/-- Witness for C7 at the spec's own example: separator ", " and the
list 1, 2, 3 (the printer instantiated with `dispTest`). -/
theorem format_sep_directive_witness :
    ([',', ' '] ≠ ([] : List Char)) ∧ ('\x7d' ∉ [',', ' ']) ∧
    core_format dispTest repTest
        [.str ⟨['\x7b', '@', ',', ' ', '\x7d']⟩,
          .list [.num 1, .num 2, .num 3]] =
      some (.ok (.str "1, 2, 3")) := by
  refine ⟨by decide, by decide, ?_⟩
  have h := format_sep_directive dispTest repTest
    [.num 1, .num 2, .num 3] [',', ' '] (by decide) (by decide)
  exact h.trans (by rfl)

end Vaterite
